import Mathlib

/-!
Verification of the kiota-http-go middleware library against its
natural-language specification.  Go sources are shallowly embedded:
`net/http.Header` values become association lists from canonical header
names to value lists, URLs become records of the accessor results used by
the code, and external collaborators (URL parsing, gzip, the RNG, the
regexp engine, the network dispatch) become explicit function parameters.
-/

/-- Model of `net/http.Header`: a map from canonical header names to the
list of values stored under that name (Go represents it as
`map[string][]string`). -/
abbrev HeadersT := List (String × List String)

/-- Model of `Header.Del`: removes the entry stored under `key`. -/
def headerDel (h : HeadersT) (key : String) : HeadersT :=
  h.filter (fun p => p.1 != key)

/-- Model of `Header.Get`: first value stored under `key`, or `""`. -/
def headerGetFirst (h : HeadersT) (key : String) : String :=
  match h.find? (fun p => p.1 == key) with
  | some p => p.2.headD ""
  | none => ""

/-- Model of `Header.Set`: replaces the entry under `key` with the
single-element value list `[value]`. -/
def headerSet (h : HeadersT) (key : String) (value : String) : HeadersT :=
  (h.filter (fun p => p.1 != key)) ++ [(key, [value])]

/-- Model of a `net/url.URL` through the accessors the redirect handler
uses: `Scheme`, `Host` (which may include the port), `Hostname()` and
`Port()`. -/
structure ModelUrl where
  scheme : String
  host : String
  hostname : String
  port : String
deriving DecidableEq

/-- Model of `strings.EqualFold`, character-wise case folding. -/
def eqFold (a b : String) : Bool :=
  a.toList.map Char.toLower == b.toList.map Char.toLower

/-- Model of `ProxyResolverFunc` from redirect_handler.go: the error and
nil-URL outcomes are collapsed into `none` because
`DefaultScrubSensitiveHeaders` treats them identically
(`err != nil || proxyURL == nil`). -/
abbrev ProxyResolverF := ModelUrl → Option ModelUrl

/-- Core of `DefaultScrubSensitiveHeaders` (redirect_handler.go lines
73-93) acting on the request headers once the nil guard has passed. -/
def scrubHeaders (h : HeadersT) (originalURI newURI : ModelUrl)
    (proxyResolver : Option ProxyResolverF) : HeadersT :=
  let isDifferentHostOrSchemeOrPort :=
    !(eqFold newURI.hostname originalURI.hostname) ||
    !(eqFold newURI.scheme originalURI.scheme) ||
    newURI.port != originalURI.port
  let h1 := if isDifferentHostOrSchemeOrPort then
      headerDel (headerDel h "Authorization") "Cookie"
    else h
  let isProxyInactive := match proxyResolver with
    | none => true
    | some f => (f newURI).isNone
  if isProxyInactive then headerDel h1 "Proxy-Authorization" else h1

/-- Embedding of `DefaultScrubSensitiveHeaders` (redirect_handler.go lines
63-94) including the nil guard: a `none` request, original URI or new URI
leaves the request untouched. -/
def DefaultScrubSensitiveHeaders (request : Option HeadersT)
    (originalURI newURI : Option ModelUrl)
    (proxyResolver : Option ProxyResolverF) : Option HeadersT :=
  match request, originalURI, newURI with
  | some h, some orig, some nu => some (scrubHeaders h orig nu proxyResolver)
  | _, _, _ => request

/-- The Boolean condition under which the default scrub removes
`Authorization` and `Cookie`. -/
def scrubUriDiffers (originalURI newURI : ModelUrl) : Bool :=
  !(eqFold newURI.hostname originalURI.hostname) ||
  !(eqFold newURI.scheme originalURI.scheme) ||
  newURI.port != originalURI.port

/-- The Boolean condition under which the default scrub removes
`Proxy-Authorization`: no resolver, or the resolver yields no proxy URL
(covering the error case, which the code treats the same way). -/
def scrubProxyInactive (newURI : ModelUrl)
    (proxyResolver : Option ProxyResolverF) : Bool :=
  match proxyResolver with
  | none => true
  | some f => (f newURI).isNone

/-- The middleware constructors that `GetDefaultMiddlewares` may place in
the default chain. -/
inductive Middleware where
  | retryHandler
  | redirectHandler
  | compressionHandler
  | parametersNameDecodingHandler
  | userAgentHandler
  | headersInspectionHandler
deriving DecidableEq

/-- Embedding of `GetDefaultMiddlewares` as found in the source
(kiota_client_factory.go): it builds retry, redirect, compression and
parameter-name-decoding handlers only, with a `TODO add additional
middlewares` note.  The repository's own test `TestGetDefaultMiddlewares`
expects six middlewares including user-agent and headers-inspection. -/
def GetDefaultMiddlewares : List Middleware :=
  [Middleware.retryHandler, Middleware.redirectHandler,
   Middleware.compressionHandler, Middleware.parametersNameDecodingHandler]

/-- Chaos strategies from the chaos handler source (`Manual = 0`,
`Random = 1`). -/
inductive ChaosStrategy where
  | manual
  | random
deriving DecidableEq

/-- Model of a `net/http.Response` synthesized by the chaos handler:
the fields `createResponseBody` populates. -/
structure ChaosResponse where
  statusCode : Int
  status : String
  body : String
  headers : HeadersT
deriving DecidableEq

/-- Embedding of `ChaosHandlerOptions`. -/
structure ChaosHandlerOptions where
  baseUrl : String
  chaosStrategy : ChaosStrategy
  statusCode : Int
  statusMessage : String
  chaosPercentage : Int
  responseBody : Option ChaosResponse
  headers : HeadersT
  statusMap : List (String × List (String × Int))
deriving DecidableEq

/-- The request fields the chaos handler reads. -/
structure ChaosRequest where
  method : String
  requestURI : String
deriving DecidableEq

/-- Embedding of the `methodStatusCode` table, including the source's
`PATCH` row whose fourth code list contains the literal `504429`
(two codes concatenated by a missing comma in the source).  Methods
absent from the Go map yield the empty list (nil slice). -/
def methodStatusCode (method : String) : List Int :=
  if method = "GET" then [429, 500, 502, 503, 504]
  else if method = "POST" then [429, 500, 502, 503, 504, 507]
  else if method = "PUT" then [429, 500, 502, 503, 504, 507]
  else if method = "PATCH" then [429, 500, 502, 503, 504429, 500, 502, 503, 504]
  else if method = "DELETE" then [429, 500, 502, 503, 504, 507]
  else []

/-- Embedding of `generateRandomStatusCode`.  The RNG is modeled by the
`randIndex` seed; `rand.Intn n` panics when `n = 0`, modeled by `none`,
and otherwise yields an index below `n`, modeled as `randIndex % n`. -/
def generateRandomStatusCode (randIndex : Nat) (request : ChaosRequest) : Option Int :=
  let statusCodeArray := methodStatusCode request.method
  if statusCodeArray.length = 0 then none
  else some (statusCodeArray.getD (randIndex % statusCodeArray.length) 0)

/-- Model of `strings.Replace(s, old, new, 1)`: replaces the first
occurrence only. -/
def replaceFirst : List Char → List Char → List Char → List Char
  | [], _, _ => []
  | c :: rest, pat, rep =>
    if pat ≠ [] ∧ pat.isPrefixOf (c :: rest) then rep ++ (c :: rest).drop pat.length
    else c :: replaceFirst rest pat rep

/-- Embedding of `getRelativeURL`. -/
def getRelativeURL (handlerOptions : ChaosHandlerOptions) (url : String) : String :=
  if handlerOptions.baseUrl != "" then
    String.mk (replaceFirst url.toList handlerOptions.baseUrl.toList [])
  else url

/-- Go map lookup on an association-list model. -/
def lookupMap {β : Type} (m : List (String × β)) (key : String) : Option β :=
  (m.find? (fun p => p.1 == key)).map (fun p => p.2)

/-- Embedding of the fallback loop of `getStatusCode` over the status
map keys.  The regexp engine is the `regexMatch` oracle; the source
matches each `key+"$"` against the literal string `"peach"` (a bug the
spec also records). -/
def statusMapRegexLoop (regexMatch : String → String → Bool) :
    List (String × List (String × Int)) → String → Option Int
  | [], _ => none
  | (key, vals) :: rest, method =>
    if regexMatch (key ++ "$") "peach" then
      let responseCode := (lookupMap vals method).getD 0
      if responseCode ≠ 0 then some responseCode
      else statusMapRegexLoop regexMatch rest method
    else statusMapRegexLoop regexMatch rest method

/-- Embedding of `getStatusCode`; `none` models the panic propagated
from `generateRandomStatusCode`. -/
def getStatusCode (regexMatch : String → String → Bool) (randIndex : Nat)
    (handlerOptions : ChaosHandlerOptions) (req : ChaosRequest) : Option Int :=
  match handlerOptions.chaosStrategy with
  | ChaosStrategy.manual => some handlerOptions.statusCode
  | ChaosStrategy.random =>
    if handlerOptions.statusCode > 0 then some handlerOptions.statusCode
    else
      let relativeUrl := getRelativeURL handlerOptions req.requestURI
      match lookupMap handlerOptions.statusMap relativeUrl with
      | some definedResponses =>
        match lookupMap definedResponses req.method with
        | some mapCode => some mapCode
        | none => generateRandomStatusCode randIndex req
      | none =>
        match statusMapRegexLoop regexMatch handlerOptions.statusMap req.method with
        | some responseCode => some responseCode
        | none => generateRandomStatusCode randIndex req

/-- Embedding of the `httpStatusCode` reason table. -/
def httpStatusCodeText (statusCode : Int) : String :=
  (lookupMap [
    ("100", "Continue"), ("101", "Switching Protocols"), ("102", "Processing"),
    ("103", "Early Hints"), ("200", "OK"), ("201", "Created"), ("202", "Accepted"),
    ("203", "Non-Authoritative Information"), ("204", "No Content"),
    ("205", "Reset Content"), ("206", "Partial Content"), ("207", "Multi-Status"),
    ("208", "Already Reported"), ("226", "IM Used"), ("300", "Multiple Choices"),
    ("301", "Moved Permanently"), ("302", "Found"), ("303", "See Other"),
    ("304", "Not Modified"), ("305", "Use Proxy"), ("307", "Temporary Redirect"),
    ("308", "Permanent Redirect"), ("400", "Bad Request"), ("401", "Unauthorized"),
    ("402", "Payment Required"), ("403", "Forbidden"), ("404", "Not Found"),
    ("405", "Method Not Allowed"), ("406", "Not Acceptable"),
    ("407", "Proxy Authentication Required"), ("408", "Request Timeout"),
    ("409", "Conflict"), ("410", "Gone"), ("411", "Length Required"),
    ("412", "Precondition Failed"), ("413", "Payload Too Large"),
    ("414", "URI Too Long"), ("415", "Unsupported Media Type"),
    ("416", "Range Not Satisfiable"), ("417", "Expectation Failed"),
    ("421", "Misdirected Request"), ("422", "Unprocessable Entity"),
    ("423", "Locked"), ("424", "Failed Dependency"), ("425", "Too Early"),
    ("426", "Upgrade Required"), ("428", "Precondition Required"),
    ("429", "Too Many Requests"), ("431", "Request Header Fields Too Large"),
    ("451", "Unavailable For Legal Reasons"), ("500", "Internal Server Error"),
    ("501", "Not Implemented"), ("502", "Bad Gateway"), ("503", "Service Unavailable"),
    ("504", "Gateway Timeout"), ("505", "HTTP Version Not Supported"),
    ("506", "Variant Also Negotiates"), ("507", "Insufficient Storage"),
    ("508", "Loop Detected"), ("510", "Not Extended"),
    ("511", "Network Authentication Required")] (toString statusCode)).getD ""

/-- Embedding of `createResponseBody`: the caller-provided response wins;
otherwise a response with the chosen status code, the configured status
message and a small JSON-ish body is synthesized. -/
def createResponseBody (handlerOptions : ChaosHandlerOptions) (statusCode : Int) :
    ChaosResponse :=
  match handlerOptions.responseBody with
  | some r => r
  | none =>
    let bodyText :=
      if statusCode > 400 then
        "error : \x7b code :  " ++ httpStatusCodeText statusCode ++
          " , message : " ++ handlerOptions.statusMessage ++ " \x7d"
      else "\x7b\x7d"
    { statusCode := statusCode
      status := handlerOptions.statusMessage
      body := bodyText
      headers := handlerOptions.headers }

/-- Embedding of `createChaosResponse`; `none` propagates the panic from
`getStatusCode`. -/
def createChaosResponse (regexMatch : String → String → Bool) (randIndex : Nat)
    (handlerOptions : ChaosHandlerOptions) (req : ChaosRequest) : Option ChaosResponse :=
  match getStatusCode regexMatch randIndex handlerOptions req with
  | none => none
  | some statusCode => some (createResponseBody handlerOptions statusCode)

/-- What the chaos handler's `Intercept` does with a request. -/
inductive ChaosOutcome where
  | response (r : ChaosResponse)
  | next
  | panicked
deriving DecidableEq

/-- Embedding of `ChaosHandler.Intercept`: `drawPercent` models the
`rand.Intn(100)` draw; when it is below the configured percentage a chaos
response is synthesized, otherwise the request is yielded to the next
handler in the pipeline. -/
def chaosHandlerIntercept (regexMatch : String → String → Bool)
    (drawPercent randIndex : Nat) (handlerOptions : ChaosHandlerOptions)
    (req : ChaosRequest) : ChaosOutcome :=
  if (drawPercent : Int) < handlerOptions.chaosPercentage then
    match createChaosResponse regexMatch randIndex handlerOptions req with
    | some r => ChaosOutcome.response r
    | none => ChaosOutcome.panicked
  else ChaosOutcome.next

/-- A `Manual`-strategy option set that `NewChaosHandlerWithOptions`
accepts (percentage within bounds, non-zero status code) but whose
percentage is below 100. -/
def chaosManualOpts : ChaosHandlerOptions :=
  { baseUrl := ""
    chaosStrategy := ChaosStrategy.manual
    statusCode := 400
    statusMessage := "A message"
    chaosPercentage := 0
    responseBody := none
    headers := []
    statusMap := [] }

/-- A sample request for the chaos counterexample. -/
def chaosSampleRequest : ChaosRequest := { method := "GET", requestURI := "/x" }

/-- The `abs.ApiError` value as the source's `throwFailedResponses`
constructs it: only the `Message` field is populated; the struct literal
carries no status code and no header fields. -/
structure SrcApiError where
  message : String
deriving DecidableEq

/-- Result of `throwFailedResponses`: `ok` models the nil error for
status codes below 400, `apiError` the synthesized generic error,
`bodyReadError` and `deserializeError` the propagated errors from parse
node creation and deserialization, `deserialized` the typed error value
produced by a registered factory. -/
inductive FailedResponsesResult where
  | ok
  | apiError (e : SrcApiError)
  | bodyReadError
  | deserializeError
  | deserialized (errValue : Nat)
deriving DecidableEq

/-- Embedding of the factory selection in `throwFailedResponses`
(nethttp_request_adapter.go lines 641-651): exact status key first, then
`"4XX"` for 400-499, then `"5XX"` for 500-599.  Factories are modeled by
opaque identifiers. -/
def selectErrorFactory (errorMappings : List (String × Nat)) (statusCode : Nat) :
    Option Nat :=
  if errorMappings.length ≠ 0 then
    match lookupMap errorMappings (toString statusCode) with
    | some f => some f
    | none =>
      if 400 ≤ statusCode ∧ statusCode < 500 then lookupMap errorMappings "4XX"
      else if 500 ≤ statusCode ∧ statusCode < 600 then lookupMap errorMappings "5XX"
      else none
  else none

/-- Embedding of `throwFailedResponses` (nethttp_request_adapter.go lines
633-685).  `respHeaders` carries the response headers available to the
function; the embedding shows they never reach the synthesized error.
`rootNode` models the `getRootParseNode` call (`Except.error` for a body
read or factory error, `Except.ok none` for a missing content type, id
otherwise) and `getObjectValue` models deserialization by the selected
factory. -/
def throwFailedResponses (errorMappings : List (String × Nat))
    (getObjectValue : Nat → Nat → Except String (Option Nat))
    (statusCode : Nat) (respHeaders : HeadersT)
    (rootNode : Except String (Option Nat)) : FailedResponsesResult :=
  if statusCode < 400 then FailedResponsesResult.ok
  else
    match selectErrorFactory errorMappings statusCode with
    | none =>
      FailedResponsesResult.apiError
        ⟨"The server returned an unexpected status code and no error factory is registered for this code: "
          ++ toString statusCode⟩
    | some errorCtor =>
      match rootNode with
      | Except.error _ => FailedResponsesResult.bodyReadError
      | Except.ok none =>
        FailedResponsesResult.apiError
          ⟨"The server returned an unexpected status code with no response body: "
            ++ toString statusCode⟩
      | Except.ok (some node) =>
        match getObjectValue node errorCtor with
        | Except.error _ => FailedResponsesResult.deserializeError
        | Except.ok none =>
          FailedResponsesResult.apiError
            ⟨"The server returned an unexpected status code but the error could not be deserialized: "
              ++ toString statusCode⟩
        | Except.ok (some v) => FailedResponsesResult.deserialized v

/-- Model of `strings.Contains` on character lists. -/
def containsSub : List Char → List Char → Bool
  | [], sub => sub.isEmpty
  | c :: rest, sub => sub.isPrefixOf (c :: rest) || containsSub rest sub

/-- Embedding of `contentRangeBytesIsPresent`: some value stored under the
`Content-Range` key contains `"bytes"` case-insensitively. -/
def contentRangeBytesIsPresent (header : HeadersT) : Bool :=
  ((lookupMap header "Content-Range").getD []).any
    (fun contentRange => containsSub (contentRange.toList.map Char.toLower) "bytes".toList)

/-- Embedding of `contentEncodingIsPresent`: the `Content-Encoding` key
exists in the header map. -/
def contentEncodingIsPresent (header : HeadersT) : Bool :=
  (lookupMap header "Content-Encoding").isSome

/-- The request fields the compression handler manipulates before
yielding. -/
structure CompressionRequest where
  headers : HeadersT
  body : Option (List Nat)
  contentLength : Int
deriving DecidableEq

/-- Embedding of the request-transformation phase of
`CompressionHandler.Intercept`: the returned Boolean is `false` when the
request is forwarded untouched (the skip path) and `true` when the body
has been gzip-compressed (`gzipFn` models `compressReqBody`, whose
reported size is the length of the compressed bytes), `Content-Encoding:
gzip` set, and the content length updated, before yielding. -/
def compressionIntercept (gzipFn : List Nat → List Nat) (shouldCompress : Bool)
    (req : CompressionRequest) : CompressionRequest × Bool :=
  if hc : (!shouldCompress || contentRangeBytesIsPresent req.headers ||
      contentEncodingIsPresent req.headers || req.body.isNone) = true then
    (req, false)
  else
    have hb : req.body.isSome := by
      rcases hcase : req.body with _ | b
      · exact absurd hc (by simp [hcase])
      · simp
    let unCompressedBody := req.body.get hb
    let compressedBody := gzipFn unCompressedBody
    ({ headers := headerSet req.headers "Content-Encoding" "gzip"
       body := some compressedBody
       contentLength := (compressedBody.length : Int) }, true)

/-- The request fields `getRedirectRequest` reads and writes. -/
structure RedirectRequest where
  method : String
  url : ModelUrl
  host : String
  headers : HeadersT
  body : Option (List Nat)
deriving DecidableEq

/-- The response fields `getRedirectRequest` reads. -/
structure RedirectResponse where
  statusCode : Nat
  headers : HeadersT
deriving DecidableEq

/-- A `ScrubSensitiveHeadersFunc` callback: it receives the cloned
redirect request, the original URI, the new URI and the proxy resolver,
and may rewrite the request. -/
abbrev ScrubFn := RedirectRequest → ModelUrl → ModelUrl → Option ProxyResolverF → RedirectRequest

/-- `DefaultScrubSensitiveHeaders` wrapped as a `ScrubFn`: it rewrites
only the request headers via `scrubHeaders`. -/
def defaultScrubFn : ScrubFn := fun r orig nu proxyResolver =>
  { r with headers := scrubHeaders r.headers orig nu proxyResolver }

/-- Status code constants from redirect_handler.go. -/
def seeOther : Nat := 303

/-- Result of `getRedirectRequest`: the request to re-issue, or the
error return. -/
inductive RedirectResult where
  | err (msg : String)
  | ok (req : RedirectRequest)
deriving DecidableEq

/-- Embedding of `getRedirectRequest` (redirect_handler.go lines
246-289).  `parseUrl` models `net/url.Parse` (`none` for a parse error);
the outer `none` models the panic of `locationHeaderValue[0]` on an empty
location value (unreachable from `Intercept`, which only follows
responses with a non-empty `Location`); `scrubOpt` is the configured
`ScrubSensitiveHeaders` callback, `none` selecting the default scrub. -/
def getRedirectRequest (parseUrl : String → Option ModelUrl)
    (scrubOpt : Option ScrubFn) (proxyResolver : Option ProxyResolverF)
    (request : Option RedirectRequest) (response : Option RedirectResponse) :
    Option RedirectResult :=
  match request, response with
  | some req, some resp =>
    let locationHeaderValue := headerGetFirst resp.headers "Location"
    if locationHeaderValue = "" then none
    else
      let locationHeaderValue :=
        if locationHeaderValue.front = '/' then
          req.url.scheme ++ "://" ++ req.url.host ++ locationHeaderValue
        else locationHeaderValue
      match parseUrl locationHeaderValue with
      | none => some (RedirectResult.err "url parse error")
      | some targetUrl =>
        let result := { req with url := targetUrl }
        let result :=
          if result.host != targetUrl.host then { result with host := targetUrl.host }
          else result
        let result :=
          if resp.statusCode = seeOther then
            { result with
              method := "GET"
              headers := headerDel (headerDel result.headers "Content-Type") "Content-Length"
              body := none }
          else result
        let scrubFunc := scrubOpt.getD defaultScrubFn
        some (RedirectResult.ok (scrubFunc result req.url targetUrl proxyResolver))
  | _, _ => some (RedirectResult.err "request or response is nil")

/-- The response fields the CAE retry logic reads. -/
structure CaeResponse where
  statusCode : Nat
  headers : HeadersT
deriving DecidableEq

/-- The whitespace class of the regexp `\s`. -/
def isRegexSpace (c : Char) : Bool :=
  c = ' ' || c = '\t' || c = '\n' || c = '\x0c' || c = '\r'

/-- Model of the regexp `(?i)^Bearer\s`: when the string starts with
`Bearer` case-insensitively followed by a whitespace character, returns
the remainder after stripping that prefix (what
`reBearer.ReplaceAll(v, "")` leaves); `none` when the regexp does not
match. -/
def stripBearer (s : List Char) : Option (List Char) :=
  match s with
  | c1 :: c2 :: c3 :: c4 :: c5 :: c6 :: w :: rest =>
    if [c1, c2, c3, c4, c5, c6].map Char.toLower = ['b', 'e', 'a', 'r', 'e', 'r'] ∧
        isRegexSpace w then
      some rest
    else none
  | _ => none

/-- Model of `reClaims.FindStringSubmatch` for the pattern matching a
double-quoted substring: the content between the first quote and the
next quote, or `none` when no such pair exists (in which case the Go
call returns a nil slice). -/
def findQuotedSubmatch (s : List Char) : Option (List Char) :=
  match s.dropWhile (fun c => c ≠ '\"') with
  | [] => none
  | _ :: afterQuote =>
    if (afterQuote.dropWhile (fun c => c ≠ '\"')) = [] then none
    else some (afterQuote.takeWhile (fun c => c ≠ '\"'))

/-- Model of `strings.Trim(s, " ")`. -/
def trimSpacesList (s : List Char) : List Char :=
  ((s.dropWhile (fun c => c = ' ')).reverse.dropWhile (fun c => c = ' ')).reverse

/-- Model of `strings.Split(s, ",")`. -/
def splitOnComma : List Char → List (List Char)
  | [] => [[]]
  | c :: rest =>
    if c = ',' then [] :: splitOnComma rest
    else
      match splitOnComma rest with
      | g :: gs => (c :: g) :: gs
      | [] => [[c]]

/-- Embedding of the parameter loop in `retryCAEResponseIfRequired`: the
`responseClaims` value after the loop.  `responseClaims` starts out empty
(`some []` when no comma-separated parameter has a space-trimmed form
starting with `claims`); for the first parameter that does, the quoted
submatch is extracted, and `none` models the panic of indexing
`FindStringSubmatch(parameter)[1]` when the regexp found no quoted
substring. -/
def claimsSearch : List (List Char) → Option (List Char)
  | [] => some []
  | p :: rest =>
    if ("claims".toList).isPrefixOf (trimSpacesList p) then findQuotedSubmatch p
    else claimsSearch rest

mutual

/-- Embedding of `getHttpResponseMessage` restricted to the CAE round
trip (nethttp_request_adapter.go lines 110-145): authentication, request
construction and `httpClient.Do` are modeled by the `dispatch` oracle
mapping the claims carried by the pass to the response it produces.  The
returned number counts the dispatches performed; `none` models a panic
inside `retryCAEResponseIfRequired`. -/
def getHttpResponseMessage (dispatch : String → CaeResponse) (claims : String) :
    Option (CaeResponse × Nat) :=
  match retryCAEResponseIfRequired dispatch (dispatch claims) claims with
  | none => none
  | some (r, n) => some (r, n + 1)
termination_by ((if claims = "" then 3 else 1) : Nat)
decreasing_by by_cases h : claims = "" <;> simp [h]

/-- Embedding of `retryCAEResponseIfRequired` (nethttp_request_adapter.go
lines 153-178): on a 401 received by a pass that carries no claims, with
a `WWW-Authenticate` value matching `(?i)^Bearer\s`, the claims
parameter is extracted and, when non-empty, the whole
`getHttpResponseMessage` round is re-entered with those claims; in every
other case the response is returned as is.  `none` models the panic on a
claims parameter without a quoted substring. -/
def retryCAEResponseIfRequired (dispatch : String → CaeResponse)
    (response : CaeResponse) (claims : String) : Option (CaeResponse × Nat) :=
  if hcl : response.statusCode = 401 ∧ claims = "" then
    match stripBearer (headerGetFirst response.headers "WWW-Authenticate").toList with
    | some stripped =>
      match claimsSearch (splitOnComma stripped) with
      | none => none
      | some responseClaims =>
        if hrc : String.mk responseClaims ≠ "" then
          getHttpResponseMessage dispatch (String.mk responseClaims)
        else some (response, 0)
    | none => some (response, 0)
  else some (response, 0)
termination_by ((if claims = "" then 2 else 0) : Nat)
decreasing_by simp [hcl.2, hrc]

end

/-- Model of `strings.ReplaceAll` (all non-overlapping occurrences,
scanning left to right). -/
def replaceAll (s pat rep : List Char) : List Char :=
  match s with
  | [] => []
  | c :: rest =>
    if pat ≠ [] ∧ pat.isPrefixOf (c :: rest) then
      rep ++ replaceAll ((c :: rest).drop pat.length) pat rep
    else c :: replaceAll rest pat rep
termination_by s.length
decreasing_by
  · rename_i hp
    simp only [List.length_drop, List.length_cons]
    rcases pat with _ | ⟨p, ps⟩
    · exact absurd rfl hp.1
    · simp only [List.length_cons]
      omega
  · simp

/-- The hexadecimal digit characters `strconv.FormatInt(_, 16)` uses. -/
def hexDigitChar (n : Nat) : Char :=
  if n < 10 then Char.ofNat ('0'.toNat + n) else Char.ofNat ('a'.toNat + (n - 10))

/-- Model of `strconv.FormatInt(int64(b), 16)` for a byte value `b`:
lowercase hexadecimal without padding (byte values fit in two digits). -/
def hexOfByte (n : Nat) : List Char :=
  if n < 16 then [hexDigitChar n] else [hexDigitChar (n / 16), hexDigitChar (n % 16)]

/-- One iteration of the decoding loop of
`ParametersNameDecodingHandler.Intercept` (parameters_name_decoding_handler.go
lines 71-75): replace the upper-case percent encoding of `parameter`
everywhere, then the lower-case one. -/
def decodeParameterStep (rawQuery : List Char) (parameter : Char) : List Char :=
  let valueToReplace := '%' :: hexOfByte parameter.toNat
  let replacementValue := [parameter]
  replaceAll (replaceAll rawQuery (valueToReplace.map Char.toUpper) replacementValue)
    (valueToReplace.map Char.toLower) replacementValue

/-- Embedding of `ParametersNameDecodingHandler.Intercept`
(parameters_name_decoding_handler.go lines 63-78) restricted to its
effect on the raw query: when enabled, with a non-empty decode set, and
with a `%` present in the raw query, each configured byte's percent
encoding is replaced in both hexadecimal cases. -/
def parametersNameDecodingIntercept (enable : Bool) (parametersToDecode : List Char)
    (rawQuery : List Char) : List Char :=
  if enable && !parametersToDecode.isEmpty && rawQuery.contains '%' then
    parametersToDecode.foldl decodeParameterStep rawQuery
  else rawQuery

/-- The default decode set of `NewParametersNameDecodingHandler`. -/
def defaultParametersToDecode : List Char := ['-', '.', '~', '$']

/-- Lookup of a two-character hexadecimal pair in an encoding table:
entries are (second char, third char, decoded byte) of a `%XX` pattern. -/
def lookupEnc : List (Char × Char × Char) → Char → Char → Option Char
  | [], _, _ => none
  | (a, b, r) :: rest, y, z => if y = a ∧ z = b then some r else lookupEnc rest y z

/-- The specification-side one-pass decoder: scanning left to right,
every occurrence of `%` followed by a two-character pair listed in the
table is replaced by the decoded byte, and every other character —
including any percent encoding not in the table — is passed through
unchanged. -/
def decSpec (table : List (Char × Char × Char)) : List Char → List Char
  | [] => []
  | c :: rest =>
    if c = '%' then
      match rest with
      | y :: z :: rest2 =>
        match lookupEnc table y z with
        | some r => r :: decSpec table rest2
        | none => '%' :: decSpec table (y :: z :: rest2)
      | other => c :: decSpec table other
    else c :: decSpec table rest
termination_by s => s.length
decreasing_by all_goals (simp only [List.length_cons]; omega)

/-- The encoding table realized by the default decode set: both
hexadecimal cases of `-` (0x2d), `.` (0x2e), `~` (0x7e) and `$` (0x24),
in the order the interception loop applies them. -/
def defaultEncodings : List (Char × Char × Char) :=
  [('2', 'D', '-'), ('2', 'd', '-'), ('2', 'E', '.'), ('2', 'e', '.'),
   ('7', 'E', '~'), ('7', 'e', '~'), ('2', '4', '$'), ('2', '4', '$')]

/-- Sequential application of `replaceAll` for each `%XX` encoding in a
table, first entry first: the shape of the interception loop once the
upper-case and lower-case passes are listed individually. -/
def applyEncChain (L : List (Char × Char × Char)) (s : List Char) : List Char :=
  match L with
  | [] => s
  | (a, b, r) :: L2 => applyEncChain L2 (replaceAll s ['%', a, b] [r])

/-- A dispatch oracle for exercising the CAE round trip: the first pass
(no claims) receives a 401 bearer challenge carrying claims `abc`; the
retry pass receives another 401 challenge. -/
def caeWitnessDispatch : String → CaeResponse := fun claims =>
  if claims = "" then
    { statusCode := 401
      headers := [("WWW-Authenticate", ["Bearer realm=\"\", error=\"insufficient_claims\", claims=\"abc\""])] }
  else
    { statusCode := 401
      headers := [("WWW-Authenticate", ["Bearer claims=\"xyz\""])] }

/-- A concrete URL for redirect witnesses. -/
def witnessTargetUrl : ModelUrl :=
  { scheme := "https", host := "b.example:8080", hostname := "b.example", port := "8080" }

/-- A concrete original URL for redirect witnesses. -/
def witnessOriginalUrl : ModelUrl :=
  { scheme := "https", host := "a.example", hostname := "a.example", port := "" }

/-- A concrete request for the 303 redirect witness. -/
def witnessRedirectRequest : RedirectRequest :=
  { method := "POST"
    url := witnessOriginalUrl
    host := "a.example"
    headers := [("Content-Type", ["application/json"]), ("Content-Length", ["4"]),
                ("Accept", ["application/json"])]
    body := some [116, 101, 115, 116] }

/-- A concrete 303 response for the redirect witness. -/
def witnessRedirectResponse : RedirectResponse :=
  { statusCode := 303, headers := [("Location", ["https://b.example:8080/next"])] }

/-- The request `getRedirectRequest` builds in the 303 redirect
witness. -/
def witnessRedirectResult : RedirectRequest :=
  { method := "GET"
    url := witnessTargetUrl
    host := "b.example:8080"
    headers := [("Accept", ["application/json"])]
    body := none }

/-- A `Manual`-strategy option set with chaos percentage 100 for the
amended chaos-handler witness. -/
def chaosWitnessOpts : ChaosHandlerOptions :=
  { baseUrl := ""
    chaosStrategy := ChaosStrategy.manual
    statusCode := 503
    statusMessage := "Service Unavailable"
    chaosPercentage := 100
    responseBody := none
    headers := []
    statusMap := [] }

/-- A `Random`-strategy option set with no configured status code and an
empty status map, for the random-status-panic witness. -/
def chaosRandomOpts : ChaosHandlerOptions :=
  { baseUrl := ""
    chaosStrategy := ChaosStrategy.random
    statusCode := 0
    statusMessage := "A random error message"
    chaosPercentage := 100
    responseBody := none
    headers := []
    statusMap := [] }

/-- A compression request with a body and no compression-relevant
headers, for the compression witness. -/
def compressionWitnessRequest : CompressionRequest :=
  { headers := [("Content-Type", ["application/json"])]
    body := some [104, 105]
    contentLength := 2 }

/-- C1: for every redirect request, original URI and new URI that are
all non-nil, `DefaultScrubSensitiveHeaders` keeps exactly those headers
that are not scrubbed: `Authorization` and `Cookie` are removed if and
only if the new URI differs from the original in hostname, scheme or
port (hostname and scheme case-insensitively), `Proxy-Authorization` is
removed if and only if no proxy is active for the new URI, and every
other header entry is passed through unchanged. -/
theorem defaultScrubSensitiveHeaders_spec (h : HeadersT) (orig nu : ModelUrl)
    (pr : Option ProxyResolverF) :
    DefaultScrubSensitiveHeaders (some h) (some orig) (some nu) pr =
      some (h.filter (fun entry =>
        !((scrubUriDiffers orig nu && (entry.1 == "Authorization" || entry.1 == "Cookie")) ||
          (scrubProxyInactive nu pr && entry.1 == "Proxy-Authorization")))) := by
  have e1 : DefaultScrubSensitiveHeaders (some h) (some orig) (some nu) pr =
      some (if scrubProxyInactive nu pr then
          headerDel (if scrubUriDiffers orig nu then
              headerDel (headerDel h "Authorization") "Cookie" else h) "Proxy-Authorization"
        else (if scrubUriDiffers orig nu then
          headerDel (headerDel h "Authorization") "Cookie" else h)) := rfl
  rw [e1]
  cases hD : scrubUriDiffers orig nu <;> cases hP : scrubProxyInactive nu pr
  · simp [headerDel, List.filter_filter]
  · simp only [headerDel, List.filter_filter, Option.some.injEq, if_true, if_false,
      Bool.false_eq_true, Bool.true_and, Bool.false_and, Bool.false_or, Bool.or_false,
      ite_true, ite_false]
    refine List.filter_congr ?_
    intro x _
    cases h3 : x.1 == "Proxy-Authorization" <;> simp [bne, h3]
  · simp only [headerDel, List.filter_filter, Option.some.injEq, if_true, if_false,
      Bool.false_eq_true, Bool.true_and, Bool.false_and, Bool.false_or, Bool.or_false,
      ite_true, ite_false]
    refine List.filter_congr ?_
    intro x _
    cases h1 : x.1 == "Authorization" <;> cases h2 : x.1 == "Cookie" <;> simp [bne, h1, h2]
  · simp only [headerDel, List.filter_filter, Option.some.injEq, if_true, if_false,
      Bool.false_eq_true, Bool.true_and, Bool.false_and, Bool.false_or, Bool.or_false,
      ite_true, ite_false]
    refine List.filter_congr ?_
    intro x _
    cases h1 : x.1 == "Authorization" <;> cases h2 : x.1 == "Cookie" <;>
      cases h3 : x.1 == "Proxy-Authorization" <;> simp [bne, h1, h2, h3]

theorem retryCAE_claims_ne (dispatch : String → CaeResponse) (resp : CaeResponse)
    (c : String) (hc : c ≠ "") :
    retryCAEResponseIfRequired dispatch resp c = some (resp, 0) := by
  rw [retryCAEResponseIfRequired]
  rw [dif_neg]
  intro hcon
  exact hc hcon.2

theorem get_claims_ne (dispatch : String → CaeResponse) (c : String) (hc : c ≠ "") :
    getHttpResponseMessage dispatch c = some (dispatch c, 1) := by
  rw [getHttpResponseMessage, retryCAE_claims_ne dispatch _ c hc]

theorem retryCAE_dispatches_le_one (dispatch : String → CaeResponse)
    (resp : CaeResponse) (r1 : CaeResponse) (n1 : Nat)
    (hr : retryCAEResponseIfRequired dispatch resp "" = some (r1, n1)) : n1 ≤ 1 := by
  rw [retryCAEResponseIfRequired] at hr
  by_cases hst : resp.statusCode = 401
  · rw [dif_pos ⟨hst, rfl⟩] at hr
    rcases hsb : stripBearer (headerGetFirst resp.headers "WWW-Authenticate").toList with _ | stripped
    · rw [hsb] at hr
      dsimp only at hr
      simp only [Option.some.injEq, Prod.mk.injEq] at hr
      omega
    · rw [hsb] at hr
      dsimp only at hr
      rcases hcs : claimsSearch (splitOnComma stripped) with _ | responseClaims
      · rw [hcs] at hr
        dsimp only at hr
        exact absurd hr (by simp)
      · rw [hcs] at hr
        dsimp only at hr
        by_cases hrc : String.mk responseClaims ≠ ""
        · rw [dif_pos hrc] at hr
          rw [get_claims_ne dispatch _ hrc] at hr
          simp only [Option.some.injEq, Prod.mk.injEq] at hr
          omega
        · rw [dif_neg hrc] at hr
          simp only [Option.some.injEq, Prod.mk.injEq] at hr
          omega
  · rw [dif_neg (fun hcon => hst hcon.1)] at hr
    simp only [Option.some.injEq, Prod.mk.injEq] at hr
    omega

/-- C2: for every logical Send call, modeled by an arbitrary `dispatch`
oracle, the CAE round trip that starts with no claims performs at most
two dispatches in total — the original pass plus at most one retry — and
a pass that already carries claims returns its response, including a
401, without any further dispatch. -/
theorem caeRetry_atMostOnce (dispatch : String → CaeResponse) :
    (∀ r n, getHttpResponseMessage dispatch "" = some (r, n) → n ≤ 2) ∧
    (∀ c, c ≠ "" → retryCAEResponseIfRequired dispatch (dispatch c) c = some (dispatch c, 0)) := by
  constructor
  · intro r n hres
    rw [getHttpResponseMessage] at hres
    rcases hr : retryCAEResponseIfRequired dispatch (dispatch "") "" with _ | ⟨r1, n1⟩
    · rw [hr] at hres
      exact absurd hres (by simp)
    · rw [hr] at hres
      dsimp only at hres
      simp only [Option.some.injEq, Prod.mk.injEq] at hres
      obtain ⟨rfl, rfl⟩ := hres
      have := retryCAE_dispatches_le_one dispatch (dispatch "") r1 n1 hr
      omega
  · intro c hc
    exact retryCAE_claims_ne dispatch (dispatch c) c hc

/-- Witness for C2: a dispatch oracle that answers every pass with a 401
bearer claims challenge leads to exactly two dispatches, and the 401 of
the claims-carrying retry pass is returned without a further dispatch. -/
theorem caeRetry_atMostOnce_witness :
    getHttpResponseMessage caeWitnessDispatch "" = some (caeWitnessDispatch "abc", 2) ∧
    2 ≤ 2 ∧
    retryCAEResponseIfRequired caeWitnessDispatch (caeWitnessDispatch "x") "x" =
      some (caeWitnessDispatch "x", 0) := by
  have heval : getHttpResponseMessage caeWitnessDispatch "" =
      some (caeWitnessDispatch "abc", 2) := by
    rw [getHttpResponseMessage]
    rw [retryCAEResponseIfRequired]
    rw [dif_pos (show (caeWitnessDispatch "").statusCode = 401 ∧ ("" : String) = "" from ⟨by decide, rfl⟩)]
    have h1 : stripBearer (headerGetFirst (caeWitnessDispatch "").headers "WWW-Authenticate").toList =
        some ("realm=\"\", error=\"insufficient_claims\", claims=\"abc\"".toList) := by decide
    rw [h1]
    dsimp only
    have h2 : claimsSearch (splitOnComma
        ("realm=\"\", error=\"insufficient_claims\", claims=\"abc\"".toList)) =
        some ("abc".toList) := by decide
    rw [h2]
    dsimp only
    rw [dif_pos (by decide)]
    rw [get_claims_ne caeWitnessDispatch _ (by decide)]
    rfl
  exact ⟨heval, (caeRetry_atMostOnce caeWitnessDispatch).1 _ 2 heval,
    (caeRetry_atMostOnce caeWitnessDispatch).2 "x" (by decide)⟩

/-- C9: a 401 response whose `WWW-Authenticate` value is
`Bearer claims=abc` — a claims parameter with no double-quoted substring
— drives `retryCAEResponseIfRequired` into indexing a nil regexp match:
the embedded function yields the panic outcome `none` instead of a
response. -/
theorem retryCAE_panics_on_unquoted_claims :
    retryCAEResponseIfRequired (fun _ => CaeResponse.mk 200 [])
      { statusCode := 401, headers := [("WWW-Authenticate", ["Bearer claims=abc"])] } "" = none := by
  rw [retryCAEResponseIfRequired]
  rw [dif_pos (show (CaeResponse.mk 401 [("WWW-Authenticate", ["Bearer claims=abc"])]).statusCode = 401 ∧ ("" : String) = "" from ⟨rfl, rfl⟩)]
  have h1 : stripBearer (headerGetFirst
      (CaeResponse.mk 401 [("WWW-Authenticate", ["Bearer claims=abc"])]).headers
        "WWW-Authenticate").toList = some ("claims=abc".toList) := by decide
  rw [h1]
  dsimp only
  have h2 : claimsSearch (splitOnComma ("claims=abc".toList)) = none := by decide
  rw [h2]

/-- Counterexample to C3: a `Manual`-strategy handler accepted by
`NewChaosHandlerWithOptions` (percentage 0, status code 400) receives a
chaos draw of 0 and yields the request to the next handler instead of
synthesizing a response, because `Intercept` synthesizes only when
`rand.Intn(100)` falls below `ChaosPercentage`, regardless of the
strategy. -/
theorem chaosManual_yields_counterexample :
    chaosHandlerIntercept (fun _ _ => false) 0 0 chaosManualOpts chaosSampleRequest =
      ChaosOutcome.next := by decide

/-- C3 (amended): for every `Manual`-strategy chaos handler and every
request, `Intercept` synthesizes a response exactly when the chaos draw
falls below the configured percentage — so always when the percentage is
100 — and the synthesized response carries the configured status code
whenever no custom response body is configured; otherwise the request is
yielded to the next handler. -/
theorem chaosManual_amended (regexMatch : String → String → Bool) (draw randIndex : Nat)
    (opts : ChaosHandlerOptions) (req : ChaosRequest)
    (hs : opts.chaosStrategy = ChaosStrategy.manual) :
    (((draw : Int) < opts.chaosPercentage) →
      ∃ r, chaosHandlerIntercept regexMatch draw randIndex opts req = ChaosOutcome.response r ∧
        (opts.responseBody = none → r.statusCode = opts.statusCode)) ∧
    (¬((draw : Int) < opts.chaosPercentage) →
      chaosHandlerIntercept regexMatch draw randIndex opts req = ChaosOutcome.next) := by
  constructor
  · intro hdraw
    refine ⟨createResponseBody opts opts.statusCode, ?_, ?_⟩
    · simp [chaosHandlerIntercept, hdraw, createChaosResponse, getStatusCode, hs]
    · intro hrb
      simp [createResponseBody, hrb]
  · intro hdraw
    simp [chaosHandlerIntercept, hdraw]

/-- Witness for the amended C3: with percentage 100 and configured
status 503, a draw of 42 produces a synthesized response carrying
status 503. -/
theorem chaosManual_amended_witness :
    ((42 : Int) < chaosWitnessOpts.chaosPercentage) ∧
    (∃ r, chaosHandlerIntercept (fun _ _ => false) 42 0 chaosWitnessOpts chaosSampleRequest =
        ChaosOutcome.response r ∧
      (chaosWitnessOpts.responseBody = none → r.statusCode = chaosWitnessOpts.statusCode)) :=
  ⟨by decide,
    (chaosManual_amended (fun _ _ => false) 42 0 chaosWitnessOpts chaosSampleRequest rfl).1 (by decide)⟩

/-- C10: for every request whose method is outside the
`methodStatusCode` table, a chaos handler that reaches random
status-code generation — `Random` strategy, no configured status code,
empty status map — looks up an empty status-code slice and panics in
`rand.Intn(0)`: the embedding yields `none` for `getStatusCode` and the
`panicked` outcome for `Intercept` whenever the chaos draw fires. -/
theorem chaosRandom_unknownMethod_panics (regexMatch : String → String → Bool)
    (draw randIndex : Nat) (opts : ChaosHandlerOptions) (req : ChaosRequest)
    (hm : req.method ∉ ["GET", "POST", "PUT", "PATCH", "DELETE"])
    (hs : opts.chaosStrategy = ChaosStrategy.random)
    (hsc : ¬ opts.statusCode > 0) (hmap : opts.statusMap = []) :
    methodStatusCode req.method = [] ∧
    getStatusCode regexMatch randIndex opts req = none ∧
    ((draw : Int) < opts.chaosPercentage →
      chaosHandlerIntercept regexMatch draw randIndex opts req = ChaosOutcome.panicked) := by
  have htbl : methodStatusCode req.method = [] := by
    simp only [List.mem_cons, List.mem_singleton, not_or] at hm
    obtain ⟨h1, h2, h3, h4, h5, _⟩ := hm
    simp [methodStatusCode, h1, h2, h3, h4, h5]
  have hgsc : getStatusCode regexMatch randIndex opts req = none := by
    simp [getStatusCode, hs, hsc, hmap, statusMapRegexLoop, lookupMap,
      generateRandomStatusCode, htbl]
  refine ⟨htbl, hgsc, ?_⟩
  intro hdraw
  simp [chaosHandlerIntercept, hdraw, createChaosResponse, hgsc]

/-- Witness for C10: a `HEAD` request against a `Random` handler with no
configured status code and an empty status map reaches the empty slice
and panics. -/
theorem chaosRandom_unknownMethod_panics_witness :
    ({ method := "HEAD", requestURI := "/x" } : ChaosRequest).method ∉
        ["GET", "POST", "PUT", "PATCH", "DELETE"] ∧
    chaosRandomOpts.chaosStrategy = ChaosStrategy.random ∧
    (¬ chaosRandomOpts.statusCode > 0) ∧ chaosRandomOpts.statusMap = [] ∧
    getStatusCode (fun _ _ => false) 0 chaosRandomOpts { method := "HEAD", requestURI := "/x" } = none ∧
    chaosHandlerIntercept (fun _ _ => false) 0 0 chaosRandomOpts
      { method := "HEAD", requestURI := "/x" } = ChaosOutcome.panicked := by
  have h := chaosRandom_unknownMethod_panics (fun _ _ => false) 0 0 chaosRandomOpts
    { method := "HEAD", requestURI := "/x" } (by decide) rfl (by decide) rfl
  exact ⟨by decide, rfl, by decide, rfl, h.2.1, h.2.2 (by decide)⟩

/-- C4 (code divergence): the source's `GetDefaultMiddlewares` returns
only the four-element chain retry, redirect, compression,
parameter-name-decoding — it contains neither a user-agent nor a
headers-inspection handler, although the repository's own test
`TestGetDefaultMiddlewares` requires six middlewares. -/
theorem getDefaultMiddlewares_chain :
    GetDefaultMiddlewares = [Middleware.retryHandler, Middleware.redirectHandler,
      Middleware.compressionHandler, Middleware.parametersNameDecodingHandler] ∧
    GetDefaultMiddlewares.length = 4 ∧
    GetDefaultMiddlewares ≠ [Middleware.retryHandler, Middleware.redirectHandler,
      Middleware.compressionHandler, Middleware.parametersNameDecodingHandler,
      Middleware.userAgentHandler, Middleware.headersInspectionHandler] := by decide

/-- C5 (code divergence): at the failing input of the repository's test
`TestItThrowsApiError` — status 500, a `client-request-id` response
header, no error mappings — `throwFailedResponses` synthesizes an
`ApiError` carrying only a diagnostic message; the embedded error value
has no status-code or header field, and the response headers passed to
the function never influence the result. -/
theorem throwFailedResponses_message_only :
    throwFailedResponses [] (fun _ _ => Except.ok none) 500
        [("client-request-id", ["example-guid"])] (Except.ok none) =
      FailedResponsesResult.apiError
        { message := "The server returned an unexpected status code and no error factory is registered for this code: 500" } ∧
    (∀ hs : HeadersT, ∀ rootNode : Except String (Option Nat),
      throwFailedResponses [] (fun _ _ => Except.ok none) 500 hs rootNode =
        FailedResponsesResult.apiError
          { message := "The server returned an unexpected status code and no error factory is registered for this code: 500" }) := by
  refine ⟨by decide, ?_⟩
  intro hs rootNode
  rfl

/-- C6: for every request, the compression handler forwards the request
unmodified exactly when compression is disabled by the effective option,
the request has no body, a `Content-Range` value contains `bytes`
case-insensitively, or `Content-Encoding` is present; otherwise it
replaces the body with its gzip compression, sets
`Content-Encoding: gzip` and sets the content length to the compressed
size before yielding. -/
theorem compression_skip_iff (gzipFn : List Nat → List Nat) (sc : Bool)
    (req : CompressionRequest) :
    (compressionIntercept gzipFn sc req = (req, false) ↔
      (sc = false ∨ req.body = none ∨ contentRangeBytesIsPresent req.headers = true ∨
        contentEncodingIsPresent req.headers = true)) ∧
    (∀ b, req.body = some b → sc = true → contentRangeBytesIsPresent req.headers = false →
      contentEncodingIsPresent req.headers = false →
      compressionIntercept gzipFn sc req =
        ({ headers := headerSet req.headers "Content-Encoding" "gzip"
           body := some (gzipFn b)
           contentLength := ((gzipFn b).length : Int) }, true)) := by
  constructor
  · constructor
    · intro hres
      by_contra hcon
      push_neg at hcon
      obtain ⟨hsc, hb, hcr, hce⟩ := hcon
      have hsc2 : sc = true := by
        cases sc
        · exact absurd rfl hsc
        · rfl
      have hcr2 : contentRangeBytesIsPresent req.headers = false := by
        cases hv : contentRangeBytesIsPresent req.headers
        · rfl
        · exact absurd hv hcr
      have hce2 : contentEncodingIsPresent req.headers = false := by
        cases hv : contentEncodingIsPresent req.headers
        · rfl
        · exact absurd hv hce
      rcases hbv : req.body with _ | b
      · exact absurd hbv hb
      · rw [compressionIntercept, dif_neg] at hres
        · dsimp only at hres
          injection hres with h1 h2
          exact Bool.noConfusion h2
        · simp [hsc2, hcr2, hce2, hbv]
    · intro hcond
      rw [compressionIntercept, dif_pos]
      rcases hcond with h | h | h | h
      · simp [h]
      · simp [h]
      · simp [h]
      · simp [h]
  · intro b hb hsc hcr hce
    rw [compressionIntercept, dif_neg]
    · dsimp only
      simp [hb]
    · simp [hsc, hcr, hce, hb]

/-- Witness for C6: a request with body `[104, 105]`, no `Content-Range`
and no `Content-Encoding`, compressed by a gzip stand-in that prepends
the gzip magic bytes, is rewritten to the compressed body with
`Content-Encoding: gzip` and content length 4. -/
theorem compression_skip_iff_witness :
    compressionWitnessRequest.body = some [104, 105] ∧
    contentRangeBytesIsPresent compressionWitnessRequest.headers = false ∧
    contentEncodingIsPresent compressionWitnessRequest.headers = false ∧
    compressionIntercept (fun l => [31, 139] ++ l) true compressionWitnessRequest =
      ({ headers := headerSet compressionWitnessRequest.headers "Content-Encoding" "gzip"
         body := some [31, 139, 104, 105]
         contentLength := (4 : Int) }, true) := by
  have h := (compression_skip_iff (fun l => [31, 139] ++ l) true compressionWitnessRequest).2
    [104, 105] rfl rfl (by decide) (by decide)
  exact ⟨rfl, by decide, by decide, h.trans (by decide)⟩

theorem lookupMap_eq_none_iff {β : Type} {m : List (String × β)} {k : String} :
    lookupMap m k = none ↔ ∀ p ∈ m, ¬(p.1 == k) = true := by
  simp [lookupMap, List.find?_eq_none]

theorem lookupMap_headerDel_self (h : HeadersT) (k : String) :
    lookupMap (headerDel h k) k = none := by
  rw [lookupMap_eq_none_iff]
  intro p hp
  rw [headerDel, List.mem_filter] at hp
  simpa [bne] using hp.2

theorem lookupMap_headerDel_none {h : HeadersT} {k : String} (k' : String)
    (hn : lookupMap h k = none) : lookupMap (headerDel h k') k = none := by
  rw [lookupMap_eq_none_iff] at hn ⊢
  intro p hp
  exact hn p (List.mem_filter.mp hp).1

theorem lookupMap_scrubHeaders_none {h : HeadersT} {k : String}
    (orig nu : ModelUrl) (pr : Option ProxyResolverF)
    (hn : lookupMap h k = none) : lookupMap (scrubHeaders h orig nu pr) k = none := by
  have e1 : scrubHeaders h orig nu pr =
      (if scrubProxyInactive nu pr then
        headerDel (if scrubUriDiffers orig nu then
            headerDel (headerDel h "Authorization") "Cookie" else h) "Proxy-Authorization"
      else (if scrubUriDiffers orig nu then
        headerDel (headerDel h "Authorization") "Cookie" else h)) := rfl
  rw [e1]
  have h2 : lookupMap (if scrubUriDiffers orig nu then
      headerDel (headerDel h "Authorization") "Cookie" else h) k = none := by
    split
    · exact lookupMap_headerDel_none _ (lookupMap_headerDel_none _ hn)
    · exact hn
  split
  · exact lookupMap_headerDel_none _ h2
  · exact h2

/-- C7: every redirect request the handler builds for a 303 response
(with the handler's default scrub callback) has method `GET`, carries no
`Content-Type` and no `Content-Length` header, and has a nil body. -/
theorem redirect303_get_no_body (parseUrl : String → Option ModelUrl)
    (pr : Option ProxyResolverF) (req : RedirectRequest) (resp : RedirectResponse)
    (r : RedirectRequest) (h303 : resp.statusCode = 303)
    (hres : getRedirectRequest parseUrl none pr (some req) (some resp) =
      some (RedirectResult.ok r)) :
    r.method = "GET" ∧ lookupMap r.headers "Content-Type" = none ∧
    lookupMap r.headers "Content-Length" = none ∧ r.body = none := by
  rw [getRedirectRequest] at hres
  dsimp only at hres
  split at hres
  · exact absurd hres (by simp)
  · rcases hpu : parseUrl _ with _ | targetUrl
    · rw [hpu] at hres
      dsimp only at hres
      simp at hres
    · rw [hpu] at hres
      dsimp only at hres
      rw [if_pos (by rw [h303]; rfl)] at hres
      simp only [Option.some.injEq, RedirectResult.ok.injEq] at hres
      subst hres
      refine ⟨rfl, ?_, ?_, rfl⟩
      · exact lookupMap_scrubHeaders_none _ _ _
          (lookupMap_headerDel_none _ (lookupMap_headerDel_self _ _))
      · exact lookupMap_scrubHeaders_none _ _ _ (lookupMap_headerDel_self _ _)

/-- Witness for C7: a POST request with a JSON body redirected by a 303
to an absolute location is rebuilt as a GET with no `Content-Type`, no
`Content-Length` and no body. -/
theorem redirect303_get_no_body_witness :
    witnessRedirectResponse.statusCode = 303 ∧
    getRedirectRequest (fun _ => some witnessTargetUrl) none none
        (some witnessRedirectRequest) (some witnessRedirectResponse) =
      some (RedirectResult.ok witnessRedirectResult) ∧
    witnessRedirectResult.method = "GET" ∧
    lookupMap witnessRedirectResult.headers "Content-Type" = none ∧
    lookupMap witnessRedirectResult.headers "Content-Length" = none ∧
    witnessRedirectResult.body = none := by
  have heq : getRedirectRequest (fun _ => some witnessTargetUrl) none none
      (some witnessRedirectRequest) (some witnessRedirectResponse) =
      some (RedirectResult.ok witnessRedirectResult) := by decide
  have h := redirect303_get_no_body (fun _ => some witnessTargetUrl) none
    witnessRedirectRequest witnessRedirectResponse witnessRedirectResult rfl heq
  exact ⟨rfl, heq, h.1, h.2.1, h.2.2.1, h.2.2.2⟩

theorem ra3_nil (a b r : Char) : replaceAll [] ['%', a, b] [r] = [] := by
  rw [replaceAll]

theorem ra3_cons_ne {c : Char} (hc : c ≠ '%') (rest : List Char) (a b r : Char) :
    replaceAll (c :: rest) ['%', a, b] [r] = c :: replaceAll rest ['%', a, b] [r] := by
  rw [replaceAll, if_neg]
  intro hcon
  have := hcon.2
  simp [List.isPrefixOf] at this
  exact hc this.1.symm

theorem ra3_one (x a b r : Char) : replaceAll [x] ['%', a, b] [r] = [x] := by
  rw [replaceAll, if_neg]
  · rw [ra3_nil]
  · intro hcon
    have := hcon.2
    simp [List.isPrefixOf] at this

theorem ra3_two (x y a b r : Char) : replaceAll [x, y] ['%', a, b] [r] = [x, y] := by
  rw [replaceAll, if_neg]
  · rw [ra3_one]
  · intro hcon
    have := hcon.2
    simp [List.isPrefixOf] at this

theorem ra3_match (a b r : Char) (rest : List Char) :
    replaceAll ('%' :: a :: b :: rest) ['%', a, b] [r] = r :: replaceAll rest ['%', a, b] [r] := by
  rw [replaceAll, if_pos]
  · simp
  · refine ⟨by simp, ?_⟩
    simp [List.isPrefixOf]

theorem ra3_percent_nomatch {y z a b : Char} (hyz : ¬(y = a ∧ z = b)) (rest : List Char) (r : Char) :
    replaceAll ('%' :: y :: z :: rest) ['%', a, b] [r] =
      '%' :: replaceAll (y :: z :: rest) ['%', a, b] [r] := by
  rw [replaceAll, if_neg]
  intro hcon
  have := hcon.2
  simp [List.isPrefixOf] at this
  exact hyz ⟨this.1.symm, this.2.symm⟩

theorem decSpec_nil (T : List (Char × Char × Char)) : decSpec T [] = [] := by
  rw [decSpec.eq_def]

theorem decSpec_cons_ne {c : Char} (hc : c ≠ '%') (T : List (Char × Char × Char))
    (rest : List Char) : decSpec T (c :: rest) = c :: decSpec T rest := by
  rw [decSpec.eq_def]
  dsimp only
  rw [if_neg hc]

theorem decSpec_percent_nil (T : List (Char × Char × Char)) : decSpec T ['%'] = ['%'] := by
  rw [decSpec.eq_def]
  dsimp only
  rw [if_pos rfl, decSpec_nil]

theorem decSpec_percent_one (T : List (Char × Char × Char)) (y : Char) :
    decSpec T ['%', y] = '%' :: decSpec T [y] := by
  rw [decSpec.eq_def]
  dsimp only
  rw [if_pos rfl]

theorem decSpec_single (T : List (Char × Char × Char)) (x : Char) :
    decSpec T [x] = [x] := by
  by_cases hx : x = '%'
  · subst hx
    exact decSpec_percent_nil T
  · rw [decSpec_cons_ne hx, decSpec_nil]

theorem decSpec_percent_found {T : List (Char × Char × Char)} {y z : Char} {r : Char}
    (h : lookupEnc T y z = some r) (rest2 : List Char) :
    decSpec T ('%' :: y :: z :: rest2) = r :: decSpec T rest2 := by
  rw [decSpec.eq_def]
  dsimp only
  rw [if_pos rfl, h]

theorem decSpec_percent_none {T : List (Char × Char × Char)} {y z : Char}
    (h : lookupEnc T y z = none) (rest2 : List Char) :
    decSpec T ('%' :: y :: z :: rest2) = '%' :: decSpec T (y :: z :: rest2) := by
  rw [decSpec.eq_def]
  dsimp only
  rw [if_pos rfl, h]

theorem lookupEnc_cons_match (a b r : Char) (T : List (Char × Char × Char)) :
    lookupEnc ((a, b, r) :: T) a b = some r := by
  simp [lookupEnc]

theorem lookupEnc_cons_ne {y z a b : Char} (hyz : ¬(y = a ∧ z = b)) (r : Char)
    (T : List (Char × Char × Char)) :
    lookupEnc ((a, b, r) :: T) y z = lookupEnc T y z := by
  rw [lookupEnc, if_neg hyz]

theorem lookupEnc_mem {T : List (Char × Char × Char)} {y z r' : Char}
    (h : lookupEnc T y z = some r') : (y, z, r') ∈ T := by
  induction T with
  | nil => simp [lookupEnc] at h
  | cons Q rest ih =>
    rcases Q with ⟨a, b, r⟩
    rw [lookupEnc] at h
    split at h
    · rename_i hyz
      obtain ⟨rfl, rfl⟩ := hyz
      simp only [Option.some.injEq] at h
      subst h
      exact List.mem_cons_self _ _
    · exact List.mem_cons_of_mem _ (ih h)

theorem lookupEnc_none_first {T : List (Char × Char × Char)} {y : Char}
    (h : ∀ Q ∈ T, Q.1 ≠ y) (z : Char) : lookupEnc T y z = none := by
  induction T with
  | nil => rfl
  | cons Q rest ih =>
    rcases Q with ⟨a, b, r⟩
    rw [lookupEnc, if_neg]
    · exact ih (fun Q hQ => h Q (List.mem_cons_of_mem _ hQ))
    · intro hcon
      exact h (a, b, r) (List.mem_cons_self _ _) hcon.1.symm

theorem lookupEnc_none_second {T : List (Char × Char × Char)} {z : Char}
    (h : ∀ Q ∈ T, Q.2.1 ≠ z) (y : Char) : lookupEnc T y z = none := by
  induction T with
  | nil => rfl
  | cons Q rest ih =>
    rcases Q with ⟨a, b, r⟩
    rw [lookupEnc, if_neg]
    · exact ih (fun Q hQ => h Q (List.mem_cons_of_mem _ hQ))
    · intro hcon
      exact h (a, b, r) (List.mem_cons_self _ _) hcon.2.symm

theorem decSpec_cons_percent (T : List (Char × Char × Char)) (W : List Char)
    (hW : ∀ y z t, W = y :: z :: t → lookupEnc T y z = none) :
    decSpec T ('%' :: W) = '%' :: decSpec T W := by
  match W with
  | [] => rw [decSpec_percent_nil, decSpec_nil]
  | [y] => rw [decSpec_percent_one]
  | y :: z :: t => rw [decSpec_percent_none (hW y z t rfl)]

theorem ra3_head (c : Char) (rest : List Char) (a b r : Char) :
    (∃ X, replaceAll (c :: rest) ['%', a, b] [r] = r :: X) ∨
    (∃ X, replaceAll (c :: rest) ['%', a, b] [r] = c :: X) := by
  rw [replaceAll.eq_def]
  dsimp only
  split
  · exact Or.inl ⟨_, rfl⟩
  · exact Or.inr ⟨_, rfl⟩

theorem ra3_first_two {a b r : Char} {y z : Char} {rest2 : List Char} {y' z' : Char}
    {t : List Char}
    (hW : replaceAll (y :: z :: rest2) ['%', a, b] [r] = y' :: z' :: t) :
    y' = '%' ∨ y' = r ∨ (y' = y ∧ (z' = '%' ∨ z' = r ∨ z' = z)) := by
  by_cases hy : y = '%'
  · subst hy
    rcases ra3_head '%' (z :: rest2) a b r with ⟨X, hX⟩ | ⟨X, hX⟩
    · rw [hX] at hW
      exact Or.inr (Or.inl (List.head_eq_of_cons_eq hW).symm)
    · rw [hX] at hW
      exact Or.inl (List.head_eq_of_cons_eq hW).symm
  · rw [ra3_cons_ne hy] at hW
    have hy' : y = y' := List.head_eq_of_cons_eq hW
    have hW2 : replaceAll (z :: rest2) ['%', a, b] [r] = z' :: t :=
      List.tail_eq_of_cons_eq hW
    refine Or.inr (Or.inr ⟨hy'.symm, ?_⟩)
    by_cases hz : z = '%'
    · subst hz
      rcases ra3_head '%' rest2 a b r with ⟨X, hX⟩ | ⟨X, hX⟩
      · rw [hX] at hW2
        exact Or.inr (Or.inl (List.head_eq_of_cons_eq hW2).symm)
      · rw [hX] at hW2
        exact Or.inl (List.head_eq_of_cons_eq hW2).symm
    · rw [ra3_cons_ne hz] at hW2
      exact Or.inr (Or.inr (List.head_eq_of_cons_eq hW2).symm)

theorem decSpec_replaceAll (a b r : Char) (T : List (Char × Char × Char))
    (hA : a ≠ '%') (hB : b ≠ '%') (hR : r ≠ '%')
    (hT : ∀ Q ∈ T, Q.1 ≠ '%' ∧ Q.2.1 ≠ '%' ∧ r ≠ Q.1 ∧ r ≠ Q.2.1) :
    ∀ s, decSpec T (replaceAll s ['%', a, b] [r]) = decSpec ((a, b, r) :: T) s := by
  suffices H : ∀ n s, s.length ≤ n →
      decSpec T (replaceAll s ['%', a, b] [r]) = decSpec ((a, b, r) :: T) s by
    exact fun s => H s.length s le_rfl
  intro n
  induction n with
  | zero =>
    intro s hs
    obtain rfl : s = [] := List.eq_nil_of_length_eq_zero (Nat.le_zero.mp hs)
    rw [ra3_nil, decSpec_nil, decSpec_nil]
  | succ n ih =>
    intro s hs
    rcases s with _ | ⟨c, rest⟩
    · rw [ra3_nil, decSpec_nil, decSpec_nil]
    · have hrest : rest.length ≤ n := by
        simp only [List.length_cons] at hs
        omega
      by_cases hc : c = '%'
      · subst hc
        rcases rest with _ | ⟨y, rest1⟩
        · rw [ra3_one, decSpec_percent_nil, decSpec_percent_nil]
        · rcases rest1 with _ | ⟨z, rest2⟩
          · rw [ra3_two, decSpec_percent_one, decSpec_percent_one,
              decSpec_single, decSpec_single]
          · have hr2 : rest2.length ≤ n := by
              simp only [List.length_cons] at hs
              omega
            have hyz2 : (y :: z :: rest2).length ≤ n := by
              simp only [List.length_cons] at hs ⊢
              omega
            by_cases hyz : y = a ∧ z = b
            · obtain ⟨rfl, rfl⟩ := hyz
              rw [ra3_match, decSpec_cons_ne hR, ih rest2 hr2,
                decSpec_percent_found (lookupEnc_cons_match _ _ _ _)]
            · rcases hzl : lookupEnc T y z with _ | r'
              · have hWnone : ∀ y' z' t,
                    replaceAll (y :: z :: rest2) ['%', a, b] [r] = y' :: z' :: t →
                    lookupEnc T y' z' = none := by
                  intro y' z' t hW
                  rcases ra3_first_two hW with h1 | h1 | ⟨h1, h2 | h2 | h2⟩
                  · subst h1
                    exact lookupEnc_none_first (fun Q hQ => (hT Q hQ).1) z'
                  · subst h1
                    exact lookupEnc_none_first (fun Q hQ => Ne.symm ((hT Q hQ).2.2.1)) z'
                  · subst h1
                    subst h2
                    exact lookupEnc_none_second (fun Q hQ => (hT Q hQ).2.1) _
                  · subst h1
                    subst h2
                    exact lookupEnc_none_second (fun Q hQ => Ne.symm ((hT Q hQ).2.2.2)) _
                  · subst h1
                    subst h2
                    exact hzl
                rw [ra3_percent_nomatch hyz, decSpec_cons_percent T _ hWnone,
                  ih (y :: z :: rest2) hyz2,
                  decSpec_percent_none ((lookupEnc_cons_ne hyz r T).trans hzl)]
              · have hQ := lookupEnc_mem hzl
                have hy : y ≠ '%' := (hT _ hQ).1
                have hz : z ≠ '%' := (hT _ hQ).2.1
                rw [ra3_percent_nomatch hyz, ra3_cons_ne hy, ra3_cons_ne hz,
                  decSpec_percent_found hzl, ih rest2 hr2,
                  decSpec_percent_found ((lookupEnc_cons_ne hyz r T).trans hzl)]
      · rw [ra3_cons_ne hc, decSpec_cons_ne hc, decSpec_cons_ne hc, ih rest hrest]

theorem decSpec_nil_table : ∀ s, decSpec ([] : List (Char × Char × Char)) s = s := by
  suffices H : ∀ n s, s.length ≤ n → decSpec ([] : List (Char × Char × Char)) s = s by
    exact fun s => H s.length s le_rfl
  intro n
  induction n with
  | zero =>
    intro s hs
    obtain rfl : s = [] := List.eq_nil_of_length_eq_zero (Nat.le_zero.mp hs)
    exact decSpec_nil []
  | succ n ih =>
    intro s hs
    rcases s with _ | ⟨c, rest⟩
    · exact decSpec_nil []
    · have hrest : rest.length ≤ n := by
        simp only [List.length_cons] at hs
        omega
      by_cases hc : c = '%'
      · subst hc
        rcases rest with _ | ⟨y, rest1⟩
        · exact decSpec_percent_nil []
        · rcases rest1 with _ | ⟨z, rest2⟩
          · rw [decSpec_percent_one, decSpec_single]
          · rw [decSpec_percent_none (show lookupEnc [] y z = none from rfl), ih (y :: z :: rest2) hrest]
      · rw [decSpec_cons_ne hc, ih rest hrest]

theorem decSpec_applyEncChain :
    ∀ (L T : List (Char × Char × Char)) (s : List Char),
    (∀ P ∈ L, P.1 ≠ '%' ∧ P.2.1 ≠ '%' ∧ P.2.2 ≠ '%') →
    (∀ P ∈ L, ∀ Q ∈ L ++ T, Q.1 ≠ '%' ∧ Q.2.1 ≠ '%' ∧ P.2.2 ≠ Q.1 ∧ P.2.2 ≠ Q.2.1) →
    decSpec T (applyEncChain L s) = decSpec (L ++ T) s := by
  intro L
  induction L with
  | nil => intro T s _ _; rfl
  | cons P L2 ih =>
    rcases P with ⟨a, b, r⟩
    intro T s hL hRep
    rw [applyEncChain]
    rw [ih T (replaceAll s ['%', a, b] [r])
      (fun P hP => hL P (List.mem_cons_of_mem _ hP))
      (fun P hP Q hQ => hRep P (List.mem_cons_of_mem _ hP) Q
        (by
          rcases List.mem_append.mp hQ with h | h
          · exact List.mem_append.mpr (Or.inl (List.mem_cons_of_mem _ h))
          · exact List.mem_append.mpr (Or.inr h)))]
    have hhead := hL (a, b, r) (List.mem_cons_self _ _)
    exact decSpec_replaceAll a b r (L2 ++ T) hhead.1 hhead.2.1 hhead.2.2
      (fun Q hQ => by
        have := hRep (a, b, r) (List.mem_cons_self _ _) Q
          (by
            rcases List.mem_append.mp hQ with h | h
            · exact List.mem_append.mpr (Or.inl (List.mem_cons_of_mem _ h))
            · exact List.mem_append.mpr (Or.inr h))
        exact this) s

/-- C8: for every raw query containing `%`, the parameter-name decoding
handler with default options rewrites the query exactly as the one-pass
decoder over the default encoding table does: every occurrence of a
percent encoding of `-`, `.`, `~` or `$` — in either hexadecimal case —
becomes the literal byte, and every other character, including percent
encodings of bytes outside the set such as `%2B`, is left unchanged. -/
theorem parametersNameDecoding_default (q : List Char) (hq : q.contains '%' = true) :
    parametersNameDecodingIntercept true defaultParametersToDecode q =
      decSpec defaultEncodings q := by
  have hbridge : parametersNameDecodingIntercept true defaultParametersToDecode q =
      applyEncChain defaultEncodings q := by
    rw [parametersNameDecodingIntercept, if_pos]
    · rfl
    · simp only [defaultParametersToDecode]
      simpa using hq
  rw [hbridge]
  have h := decSpec_applyEncChain defaultEncodings [] q (by decide) (by decide)
  rw [List.append_nil] at h
  rw [← decSpec_nil_table (applyEncChain defaultEncodings q), h]

/-- Witness for C8: a query containing `%24` (decoded to `$`), `%2D`
(decoded to `-`) and `%2B` (left alone) satisfies the premise, and the
interception rewrites it exactly as the one-pass decoder does. -/
theorem parametersNameDecoding_default_witness :
    (("%24select=a&api%2Dversion=1%2B2".toList).contains '%' = true) ∧
    parametersNameDecodingIntercept true defaultParametersToDecode
        "%24select=a&api%2Dversion=1%2B2".toList =
      decSpec defaultEncodings "%24select=a&api%2Dversion=1%2B2".toList :=
  ⟨by decide, parametersNameDecoding_default _ (by decide)⟩
